import Mathlib

/-
  Shallow embedding of the Ivy engine (src/src/lib/engine.ts).

  The engine drives a chat bot: it validates a VCS repository identifier at
  construction, registers modules/commands/flows, exposes a permission check
  (`has`), and queries/updates repository state by spawning an external `git`
  subprocess (`execGit`, `getCurrentVersion`, `getUpstreamVersion`,
  `getReleaseChannel`, `update`).

  Subprocess behaviour is abstracted into oracles: each derived operation takes
  the outcome the subprocess call produced (the value the promise settled with),
  and the functions below reproduce exactly what the TypeScript source does with
  that outcome.  JavaScript string operations used by the source (split(' '),
  trim, join(''), substring, toLowerCase, startsWith, regex .test) are modelled
  by structurally recursive functions on the character list of a Lean String.
-/

set_option maxRecDepth 8000

namespace Ivy

/-- JS regex word character class: [A-Za-z0-9_]. -/
def isWordChar (c : Char) : Bool := c.isAlphanum || c == '_'

/-- Character class [0-9a-f] of HASH_PATTERN (case sensitive, as in the source). -/
def isHashChar (c : Char) : Bool := c.isDigit || ('a' ≤ c && c ≤ 'f')

/-- `HASH_PATTERN = /\b[0-9a-f]{5,40}\b/` (engine.ts line 85), as an unanchored
regex membership test: some substring of 5 to 40 hex characters delimited by
word boundaries exists.  For this pattern (whose body matches only word
characters) backtracking-regex `test` succeeds exactly when such a substring
exists. -/
def hashPatternTest (s : String) : Bool :=
  (List.range (s.toList.length + 1)).any fun i =>
    (List.range 41).any fun len =>
      decide (5 ≤ len) && decide (i + len ≤ s.toList.length) &&
      ((List.range len).all fun k => isHashChar (s.toList.getD (i + k) ' ')) &&
      (decide (i = 0) || !isWordChar (s.toList.getD (i - 1) ' ')) &&
      (decide (i + len = s.toList.length) || !isWordChar (s.toList.getD (i + len) ' '))

/-- `GIT_REPO_PATTERN = /\w+\/\w+/` (engine.ts line 86), as an unanchored test:
it succeeds exactly when some '/' in the string has a word character
immediately before and after it (that three-character window is a match of
`\w+\/\w+`, and any match contains such a window).  Note the source pattern is
NOT anchored: it is a substring test, not a whole-string shape test. -/
def gitRepoPatternTest (s : String) : Bool :=
  (List.range s.toList.length).any fun i =>
    decide (1 ≤ i) && (s.toList.getD i ' ' == '/') &&
    isWordChar (s.toList.getD (i - 1) ' ') && isWordChar (s.toList.getD (i + 1) ' ')

/-- JS coercion applied when a possibly-null value reaches a string context
(HASH_PATTERN.test(res) with res === null tests the string "null"). -/
def jsToString : Option String → String
  | none => "null"
  | some s => s

/-- JS `s.substring(0, n)` / `s.substr(0, n)`: first `n` characters, clamped to
the length of the string. -/
def jsSubstring (s : String) (n : Nat) : String := String.mk (s.toList.take n)

/-- JS `s.toLowerCase()` (ASCII, which is all the source compares). -/
def jsToLowerCase (s : String) : String := String.mk (s.toList.map Char.toLower)

/-- Leading and trailing whitespace removal on a character list. -/
def trimChars (cs : List Char) : List Char :=
  ((cs.dropWhile Char.isWhitespace).reverse.dropWhile Char.isWhitespace).reverse

/-- JS `s.trim()`. -/
def jsTrim (s : String) : String := String.mk (trimChars s.toList)

/-- JS `array.join('')` on an array of strings. -/
def jsJoin (xs : List String) : String := String.mk (xs.foldr (fun s acc => s.toList ++ acc) [])

/-- JS `s.startsWith(p)`. -/
def jsStartsWith (s p : String) : Bool := p.toList.isPrefixOf s.toList

/-- Split a character list at every character satisfying `p`, keeping empty
segments (the semantics of JS `String.prototype.split` with a single-character
separator, generalised over the separator test). -/
def splitAtPred (p : Char → Bool) : List Char → List (List Char)
  | [] => [[]]
  | c :: rest =>
    if p c then [] :: splitAtPred p rest
    else
      match splitAtPred p rest with
      | [] => [[c]]
      | g :: gs => (c :: g) :: gs

/-- The engine state the version-control operations read: the `vcsEnabled` flag
computed once at construction, and the configured superuser identifiers.
None of the modelled operations ever writes these fields, mirroring the
source, where only the constructor assigns them. -/
structure IvyEngine where
  vcsEnabled : Bool
  superPerms : List String
deriving DecidableEq

/-- Constructor steps 93-96 of engine.ts:
`this.vcsEnabled = !!opts.gitRepo` (absent or empty string is falsy), then
force-disable when `GIT_REPO_PATTERN.test(gitRepo)` fails.  Never throws. -/
def computeVcsEnabled : Option String → Bool
  | none => false
  | some r => if r = "" then false else gitRepoPatternTest r

/-- The part of engine construction the version queries depend on. -/
def mkIvyEngine (gitRepo : Option String) (superPerms : List String) : IvyEngine :=
  ⟨computeVcsEnabled gitRepo, superPerms⟩

/-- A user as `has` sees it: only its identifier is consulted. -/
structure IvyUser where
  id : String

/-- The scope (`guild`) collaborator of `has`:
`member u` models `guild.member(user)`, which returns a guild member or null;
a member is modelled by its `hasPermission` capability. -/
structure GuildModel where
  member : IvyUser → Option (Nat → Bool)

/-- `IvyEngine.has` (engine.ts lines 179-187):
`guild.member(user).hasPermission(permission) || superPerms.some(id => user.id === id)`.
The scoped lookup is evaluated first; when `guild.member(user)` is null the
JS call throws a TypeError before the superuser test runs — modelled as `none`. -/
def has (superPerms : List String) (user : IvyUser) (permission : Nat) (guild : GuildModel) :
    Option Bool :=
  match guild.member user with
  | none => none
  | some hasPermission =>
    some (hasPermission permission || superPerms.any fun id => user.id == id)

/-- One `data` event on the spawned process's stdout or stderr stream. -/
inductive ProcEvent where
  | stdoutData (chunk : String)
  | stderrData (chunk : String)
deriving DecidableEq

/-- The `out` accumulator of `execGit`: `{ stdout: [], stderr: [] }`. -/
structure OutBufs where
  stdout : List String
  stderr : List String
deriving DecidableEq

/-- The stream handlers of `execGit` (engine.ts lines 200-201): each data event
pushes its chunk onto the corresponding buffer. -/
def handleEvent : OutBufs → ProcEvent → OutBufs
  | b, ProcEvent.stdoutData c => ⟨b.stdout ++ [c], b.stderr⟩
  | b, ProcEvent.stderrData c => ⟨b.stdout, b.stderr ++ [c]⟩

/-- The argument list `execGit` spawns `git` with: `args.split(' ')`
(engine.ts line 194) — split at every single space character. -/
def execGitArgs (args : String) : List String :=
  (splitAtPred (fun c => c == ' ') args.toList).map String.mk

/-- Modelled from the spec: "spawn the VCS binary with the argument string
split on whitespace" — splitting at every whitespace character.  Stated only
to compare against `execGitArgs`, which is the source's behaviour. -/
def specWhitespaceSplit (args : String) : List String :=
  (splitAtPred Char.isWhitespace args.toList).map String.mk

/-- The exit handler of `execGit` (engine.ts lines 202-211): given the `data`
events that arrived and the exit code, the promise rejects with the trimmed
concatenated stderr when the exit code is non-zero, and otherwise resolves
with the trimmed concatenated stdout. -/
def execGitResult (events : List ProcEvent) (code : Int) : Except String String :=
  let out := events.foldl handleEvent ⟨[], []⟩
  if code ≠ 0 then Except.error (jsTrim (jsJoin out.stderr))
  else Except.ok (jsTrim (jsJoin out.stdout))

/-- The stdout chunks of an event sequence, in arrival order. -/
def stdoutOf (events : List ProcEvent) : List String :=
  events.filterMap fun e =>
    match e with
    | ProcEvent.stdoutData c => some c
    | ProcEvent.stderrData _ => none

/-- The stderr chunks of an event sequence, in arrival order. -/
def stderrOf (events : List ProcEvent) : List String :=
  events.filterMap fun e =>
    match e with
    | ProcEvent.stdoutData _ => none
    | ProcEvent.stderrData c => some c

/-- `IvyEngine.getCurrentVersion` (engine.ts lines 217-228).
`res` is the settled outcome of `execGit('rev-parse HEAD').catch(err => null)`:
`some` the resolved string, or `none` when the promise rejected and the catch
produced null.  Then: sentinel when VCS is disabled; sentinel when
`HASH_PATTERN.test(res)` fails (null is coerced to "null", which fails);
otherwise `res.substring(0, 7)`. -/
def getCurrentVersion (e : IvyEngine) (res : Option String) : String :=
  if !e.vcsEnabled then "unknown"
  else if !hashPatternTest (jsToString res) then "unknown"
  else jsSubstring (jsToString res) 7

/-- State-passing form of `getCurrentVersion`, making explicit that the call
writes no engine state (the source method assigns no instance field): the
returned engine is the input engine. -/
def getCurrentVersionS (e : IvyEngine) (res : Option String) : String × IvyEngine :=
  (getCurrentVersion e res, e)

/-- `IvyEngine.getUpstreamVersion` (engine.ts lines 233-244).  `res` is the
outcome of the remote-ref query (`execGit('ls-remote ...').catch(err => null)`;
the argument string, built from the repository identifier and the release
channel, is absorbed into the oracle).  Sentinel when VCS is disabled or the
result is falsy (null or empty); otherwise `res.substr(0, 7)` — no hash-shape
validation on this path. -/
def getUpstreamVersion (e : IvyEngine) (res : Option String) : String :=
  if !e.vcsEnabled then "unknown"
  else
    match res with
    | none => "unknown"
    | some s => if s = "" then "unknown" else jsSubstring s 7

/-- `IvyEngine.getReleaseChannel` (engine.ts lines 249-260): sentinel when VCS
is disabled, when the outcome of `execGit('rev-parse --abbrev-ref HEAD')` is
falsy, or when it starts with "fatal"; otherwise the raw result. -/
def getReleaseChannel (e : IvyEngine) (res : Option String) : String :=
  if !e.vcsEnabled then "unknown"
  else
    match res with
    | none => "unknown"
    | some s => if s = "" || jsStartsWith s "fatal" then "unknown" else s

/-- What one run of `update` can observe of the world: the settled outcomes of
the current-version query, the upstream-version query, the pull
(`execGit('git pull')`, whose rejection is NOT caught by `update`), and the
current-version query re-run after the pull. -/
structure UpdateOracle where
  localRes : Option String
  remoteRes : Option String
  pullRes : Except String String
  finalRes : Option String

/-- How `update` terminates, seen from its caller. -/
inductive UpdateOutcome where
  | callbackInvoked (version : String)
  | typeError
  | raised (err : String)
deriving DecidableEq

/-- `then(v)` where `then` is `update`'s optional callback parameter: invoking
an undefined callback throws a TypeError. -/
def invokeThen (hasCallback : Bool) (version : String) : UpdateOutcome :=
  if hasCallback then UpdateOutcome.callbackInvoked version else UpdateOutcome.typeError

/-- `IvyEngine.update` (engine.ts lines 266-283), paired with whether the pull
primitive was invoked.  Branches in source order: disabled → `then('Failure')`;
current and upstream versions equal after `toLowerCase()` → `then(local)` with
no pull; otherwise `await this.execGit('git pull')` with no catch, so a
rejection propagates to the caller; a falsy (empty) resolution →
`then('Failure')`; otherwise `then(await this.getCurrentVersion())`. -/
def update (e : IvyEngine) (o : UpdateOracle) (hasCallback : Bool) : UpdateOutcome × Bool :=
  if !e.vcsEnabled then (invokeThen hasCallback "Failure", false)
  else
    let locl := getCurrentVersion e o.localRes
    let remote := getUpstreamVersion e o.remoteRes
    if jsToLowerCase locl = jsToLowerCase remote then (invokeThen hasCallback locl, false)
    else
      match o.pullRes with
      | Except.error err => (UpdateOutcome.raised err, true)
      | Except.ok res =>
        if res = "" then (invokeThen hasCallback "Failure", true)
        else (invokeThen hasCallback (getCurrentVersion e o.finalRes), true)

/-- Observable steps of the construction sequence (engine.ts lines 89-132). -/
inductive BootEvent where
  | registerModule (name : String)
  | registerCommandsHook
  | registerFlowsHook
  | registerModulesHook
  | startupRun
  | moduleInit (name : String)
  | login
deriving DecidableEq

/-- Modelled from the spec: the `ModuleManager` of `./module` is not under
`src/`; per spec section 4.3 it is an ordered name-keyed registry.  Modules are
identified here by name. -/
structure ModuleManager where
  modules : List String
deriving DecidableEq

/-- Modelled from the spec: register-by-name with overwrite on collision
(registering a name already present replaces that entry and adds nothing). -/
def registerModuleM (m : ModuleManager) (name : String) : ModuleManager :=
  if m.modules.contains name then m else ⟨m.modules ++ [name]⟩

/-- Modelled from the spec: `init()` "invokes each registered module's
initialization hook exactly once, in registration order". -/
def initEvents (m : ModuleManager) : List BootEvent :=
  m.modules.map BootEvent.moduleInit

/-- The constructor sequence of engine.ts lines 103-115, as the trace of events
it emits and the final module registry.  The concrete bot's three abstract
extension points are modelled by the module names each registers (`cmdMods`,
`flowMods`, `botMods`); `eventHandler` is the optional caller-supplied event
module (line 106 falls back to a DefaultEventManager); `startup` is the
optional startup hook together with the modules it registers.  Source order:
register the event module, run the three hooks (commands, flows, modules), run
the startup hook if supplied, `moduleManager.init()`, then `client.login`. -/
def ivyConstructorRun (eventHandler : Option String) (cmdMods flowMods botMods : List String)
    (startup : Option (List String)) : List BootEvent × ModuleManager :=
  let ehName := eventHandler.getD "DefaultEventManager"
  let m1 := registerModuleM ⟨[]⟩ ehName
  let m2 := cmdMods.foldl registerModuleM m1
  let m3 := flowMods.foldl registerModuleM m2
  let m4 := botMods.foldl registerModuleM m3
  let m5 := (startup.getD []).foldl registerModuleM m4
  (BootEvent.registerModule ehName
    :: BootEvent.registerCommandsHook :: cmdMods.map BootEvent.registerModule
    ++ BootEvent.registerFlowsHook :: flowMods.map BootEvent.registerModule
    ++ BootEvent.registerModulesHook :: botMods.map BootEvent.registerModule
    ++ (match startup with
        | none => []
        | some l => BootEvent.startupRun :: l.map BootEvent.registerModule)
    ++ initEvents m5
    ++ [BootEvent.login], m5)

/- ------------------------------------------------------------------ -/
/- Helper lemmas                                                      -/
/- ------------------------------------------------------------------ -/

/-- A string of 5 to 40 hex characters (and nothing else) passes HASH_PATTERN:
the whole string is a match, with the string ends as word boundaries. -/
theorem hashPatternTest_of_allHex (s : String) (h5 : 5 ≤ s.toList.length)
    (h40 : s.toList.length ≤ 40) (hhex : ∀ c ∈ s.toList, isHashChar c = true) :
    hashPatternTest s = true := by
  apply List.any_eq_true.mpr
  refine ⟨0, List.mem_range.mpr (Nat.succ_pos _), ?_⟩
  apply List.any_eq_true.mpr
  refine ⟨s.toList.length, List.mem_range.mpr (by omega), ?_⟩
  simp only [Bool.and_eq_true, Bool.or_eq_true, decide_eq_true_eq]
  refine ⟨⟨⟨⟨h5, by omega⟩, ?_⟩, Or.inl trivial⟩, Or.inl (Nat.zero_add _)⟩
  apply List.all_eq_true.mpr
  intro k hk
  have hklt : k < s.toList.length := List.mem_range.mp hk
  have hget : s.toList.getD (0 + k) ' ' = s.toList.get ⟨k, hklt⟩ := by
    rw [Nat.zero_add, List.getD_eq_getElem?_getD, List.getElem?_eq_getElem hklt]
    rfl
  rw [hget]
  exact hhex _ (List.get_mem _ _ _)

/-- `splitAtPred` only looks at the pointwise behaviour of the separator test. -/
theorem splitAtPred_congr (p q : Char → Bool) (cs : List Char)
    (h : ∀ c ∈ cs, p c = q c) : splitAtPred p cs = splitAtPred q cs := by
  induction cs with
  | nil => rfl
  | cons c rest ih =>
    have hc := h c (List.mem_cons_self c rest)
    have hrest : ∀ x ∈ rest, p x = q x := fun x hx => h x (List.mem_cons_of_mem c hx)
    simp only [splitAtPred, hc, ih hrest]

/-- Folding the stream handlers over an event sequence appends exactly the
stdout chunks and the stderr chunks, each in arrival order. -/
theorem foldl_handleEvent (events : List ProcEvent) (b : OutBufs) :
    events.foldl handleEvent b = ⟨b.stdout ++ stdoutOf events, b.stderr ++ stderrOf events⟩ := by
  induction events generalizing b with
  | nil =>
    cases b
    simp [stdoutOf, stderrOf]
  | cons e es ih =>
    cases e with
    | stdoutData c =>
      simp [handleEvent, ih, stdoutOf, stderrOf, List.filterMap_cons, List.append_assoc]
    | stderrData c =>
      simp [handleEvent, ih, stdoutOf, stderrOf, List.filterMap_cons, List.append_assoc]

/-- Registering a sequence of pairwise-fresh names appends them in order. -/
theorem foldl_registerModuleM (names : List String) (m : ModuleManager)
    (h : (m.modules ++ names).Nodup) :
    (names.foldl registerModuleM m).modules = m.modules ++ names := by
  induction names generalizing m with
  | nil => simp
  | cons n ns ih =>
    have hd := List.nodup_append.mp h
    have hnotmem : n ∉ m.modules := fun hmem => hd.2.2 hmem (List.mem_cons_self n ns)
    have hstep : registerModuleM m n = ⟨m.modules ++ [n]⟩ := by
      simp [registerModuleM, hnotmem]
    rw [List.foldl_cons, hstep]
    have h2 : ((⟨m.modules ++ [n]⟩ : ModuleManager).modules ++ ns).Nodup := by
      simpa [List.append_assoc] using h
    rw [ih ⟨m.modules ++ [n]⟩ h2]
    simp

/- ------------------------------------------------------------------ -/
/- Claim C1                                                           -/
/- ------------------------------------------------------------------ -/

/-- Claim C1 counterexample: a superuser ("u1" is in the superuser set) whose
scope membership lookup is invalid (`guild.member` returns null) does not get
`true` — `has` throws (the scoped lookup is evaluated before the superuser
test), refuting the claim that the superuser branch needs no scope membership
validity. -/
theorem has_superuser_invalid_scope_cex :
    has ["u1"] ⟨"u1"⟩ 8 ⟨fun _ => none⟩ ≠ some true := by decide

/-- Claim C1 (corrected): whenever the scope membership lookup succeeds, a user
whose identifier is in the superuser set gets `true` from `has` regardless of
the scoped permission-check result; but the lookup succeeding is a
precondition, not something the superuser branch overrides. -/
theorem has_superuser_override (superPerms : List String) (user : IvyUser)
    (permission : Nat) (guild : GuildModel) (scopedCheck : Nat → Bool)
    (hmem : guild.member user = some scopedCheck) (hsup : user.id ∈ superPerms) :
    has superPerms user permission guild = some true := by
  unfold has
  rw [hmem]
  have hany : (superPerms.any fun id => user.id == id) = true :=
    List.any_eq_true.mpr ⟨user.id, hsup, by simp⟩
  simp [hany]

/-- Claim C1 witness: a concrete superuser whose scoped permission check is
`false` but whose member lookup succeeds gets `true`. -/
theorem has_superuser_override_witness :
    has ["42"] ⟨"42"⟩ 8 ⟨fun _ => some fun _ => false⟩ = some true :=
  has_superuser_override ["42"] ⟨"42"⟩ 8 ⟨fun _ => some fun _ => false⟩
    (fun _ => false) rfl (by decide)

/- ------------------------------------------------------------------ -/
/- Claim C3                                                           -/
/- ------------------------------------------------------------------ -/

/-- Claim C3 counterexample: the repository identifier "a/b/c" has more
segments than the two-segment word/word shape, yet construction leaves VCS
enabled (GIT_REPO_PATTERN is unanchored and finds the "a/b" substring), and
`getCurrentVersion` then returns a version, not the unknown sentinel. -/
theorem vcs_multisegment_cex :
    computeVcsEnabled (some "a/b/c") = true ∧
    getCurrentVersion (mkIvyEngine (some "a/b/c") []) (some "abcdef1234") = "abcdef1" := by
  decide

/-- Claim C3 (corrected): construction never throws, and for every repository
identifier that is absent, empty, or contains no '/' flanked by word
characters (in particular every identifier without a slash), VCS resolves to
disabled and every version query returns the unknown sentinel.  Identifiers
with extra segments such as "a/b/c" are NOT rejected: the unanchored pattern
leaves VCS enabled for them. -/
theorem vcs_malformed_disabled (r : Option String) (sp : List String)
    (h : ∀ s, r = some s → gitRepoPatternTest s = false)
    (cur up rel : Option String) :
    computeVcsEnabled r = false ∧
    getCurrentVersion (mkIvyEngine r sp) cur = "unknown" ∧
    getUpstreamVersion (mkIvyEngine r sp) up = "unknown" ∧
    getReleaseChannel (mkIvyEngine r sp) rel = "unknown" := by
  have hdis : computeVcsEnabled r = false := by
    cases r with
    | none => rfl
    | some s => simp [computeVcsEnabled, h s rfl]
  refine ⟨hdis, ?_, ?_, ?_⟩ <;>
    simp [getCurrentVersion, getUpstreamVersion, getReleaseChannel, mkIvyEngine, hdis]

/-- Claim C3 witness: the slash-less identifier "abc" disables VCS and all
three queries return the sentinel even when the subprocess would have
answered. -/
theorem vcs_malformed_disabled_witness :
    computeVcsEnabled (some "abc") = false ∧
    getCurrentVersion (mkIvyEngine (some "abc") []) (some "abcdef1234") = "unknown" ∧
    getUpstreamVersion (mkIvyEngine (some "abc") []) (some "abcdef1234") = "unknown" ∧
    getReleaseChannel (mkIvyEngine (some "abc") []) (some "main") = "unknown" :=
  vcs_malformed_disabled (some "abc") []
    (by intro s hs; injection hs with h2; rw [← h2]; decide)
    (some "abcdef1234") (some "abcdef1234") (some "main")

/- ------------------------------------------------------------------ -/
/- Claim C4                                                           -/
/- ------------------------------------------------------------------ -/

/-- Claim C4 counterexample: with VCS enabled, a subprocess output of "abcde"
(five hex characters, accepted by HASH_PATTERN's {5,40} range) makes
`getCurrentVersion` return the 5-character value "abcde", and the output
"see abcdef12 for details" (which contains a hex word but does not start with
one) makes it return "see abc" — both returned values are neither exactly 7
lowercase hex characters nor the sentinel. -/
theorem getCurrentVersion_malformed_cex :
    getCurrentVersion ⟨true, []⟩ (some "abcde") = "abcde" ∧
    getCurrentVersion ⟨true, []⟩ (some "see abcdef12 for details") = "see abc" := by
  decide

/-- Claim C4 (corrected): with VCS enabled, `getCurrentVersion` returns the
sentinel or the first at-most-7 characters of the raw output; the result is
exactly 7 lowercase hex characters whenever the output itself is a hex string
of length 7 to 40 (e.g. a full commit identifier), but a validated output that
is shorter than 7 characters, or does not begin with its hex word, yields a
shorter or non-hex prefix. -/
theorem getCurrentVersion_shape (e : IvyEngine) (res : Option String) (s : String)
    (henabled : e.vcsEnabled = true) (hres : res = some s)
    (h7 : 7 ≤ s.toList.length) (h40 : s.toList.length ≤ 40)
    (hhex : ∀ c ∈ s.toList, isHashChar c = true) :
    getCurrentVersion e res = jsSubstring s 7 ∧
    (getCurrentVersion e res).toList.length = 7 ∧
    ∀ c ∈ (getCurrentVersion e res).toList, isHashChar c = true := by
  have hpat : hashPatternTest s = true := hashPatternTest_of_allHex s (by omega) h40 hhex
  have hval : getCurrentVersion e res = jsSubstring s 7 := by
    rw [hres]
    simp [getCurrentVersion, henabled, jsToString, hpat]
  refine ⟨hval, ?_, ?_⟩
  · rw [hval]
    show (s.toList.take 7).length = 7
    rw [List.length_take]
    exact Nat.min_eq_left h7
  · rw [hval]
    intro c hc
    have hc' : c ∈ s.toList.take 7 := hc
    exact hhex c (List.take_subset _ _ hc')

/-- Claim C4 witness: a full 16-character hex output yields exactly its first
7 characters, of length 7, all hex. -/
theorem getCurrentVersion_shape_witness :
    getCurrentVersion ⟨true, []⟩ (some "abcdef1234567890") = jsSubstring "abcdef1234567890" 7 ∧
    (getCurrentVersion ⟨true, []⟩ (some "abcdef1234567890")).toList.length = 7 ∧
    ∀ c ∈ (getCurrentVersion ⟨true, []⟩ (some "abcdef1234567890")).toList, isHashChar c = true :=
  getCurrentVersion_shape ⟨true, []⟩ (some "abcdef1234567890") "abcdef1234567890"
    rfl rfl (by decide) (by decide) (by decide)

/- ------------------------------------------------------------------ -/
/- Claim C2                                                           -/
/- ------------------------------------------------------------------ -/

/-- Claim C2 (code bug): with VCS enabled, differing current and upstream
versions, and a failing pull primitive (the subprocess promise rejects),
`update` does NOT invoke its callback with the failure sentinel: the rejection
of `this.execGit('git pull')` is not caught anywhere in `update`, so it
propagates to the caller.  This evaluation of the model at the failing input
shows the run terminating as a raised rejection with the pull invoked. -/
theorem update_pull_failure_raises :
    update ⟨true, []⟩
      ⟨some "1234567", some "abcdef1234", Except.error "fatal: not a git repository", none⟩
      true
      = (UpdateOutcome.raised "fatal: not a git repository", true) := by
  decide

/- ------------------------------------------------------------------ -/
/- Claim C5                                                           -/
/- ------------------------------------------------------------------ -/

/-- Claim C5 (confirmed): with VCS enabled, whenever the current and upstream
versions agree case-insensitively, `update` invokes its callback with the
current version and the pull primitive is not invoked. -/
theorem update_noop_law (e : IvyEngine) (o : UpdateOracle)
    (henabled : e.vcsEnabled = true)
    (heq : jsToLowerCase (getCurrentVersion e o.localRes)
         = jsToLowerCase (getUpstreamVersion e o.remoteRes)) :
    update e o true
      = (UpdateOutcome.callbackInvoked (getCurrentVersion e o.localRes), false) := by
  unfold update
  simp [henabled, heq, invokeThen]

/-- Claim C5 witness: local version "abcdef1" and upstream version "ABCDEF1"
are equal case-insensitively; the callback receives "abcdef1" and no pull
happens even though the pull oracle is primed to fail. -/
theorem update_noop_law_witness :
    update ⟨true, []⟩ ⟨some "abcdef1234", some "ABCDEF1234", Except.error "boom", none⟩ true
      = (UpdateOutcome.callbackInvoked (getCurrentVersion ⟨true, []⟩ (some "abcdef1234")), false) :=
  update_noop_law ⟨true, []⟩ ⟨some "abcdef1234", some "ABCDEF1234", Except.error "boom", none⟩
    rfl (by decide)

/- ------------------------------------------------------------------ -/
/- Claim C9                                                           -/
/- ------------------------------------------------------------------ -/

/-- Claim C9 (confirmed): when both version queries fail inside `update` (each
returning the sentinel "unknown"), the equality branch is taken: the callback
receives "unknown" and the pull primitive is not invoked, so total query
failure is indistinguishable from being up to date. -/
theorem update_total_failure_equal_branch (e : IvyEngine) (o : UpdateOracle)
    (henabled : e.vcsEnabled = true)
    (hlocal : getCurrentVersion e o.localRes = "unknown")
    (hremote : getUpstreamVersion e o.remoteRes = "unknown") :
    update e o true = (UpdateOutcome.callbackInvoked "unknown", false) := by
  unfold update
  simp [henabled, hlocal, hremote]
  rfl

/-- Claim C9 witness: both subprocess promises rejected (both oracles `none`),
so both queries return "unknown"; the callback receives "unknown" and the
pull is not invoked. -/
theorem update_total_failure_equal_branch_witness :
    update ⟨true, []⟩ ⟨none, none, Except.error "netfail", none⟩ true
      = (UpdateOutcome.callbackInvoked "unknown", false) :=
  update_total_failure_equal_branch ⟨true, []⟩ ⟨none, none, Except.error "netfail", none⟩
    rfl (by decide) (by decide)

/- ------------------------------------------------------------------ -/
/- Claim C10                                                          -/
/- ------------------------------------------------------------------ -/

/-- Claim C10 (confirmed): every completion branch of `update` invokes the
callback unconditionally, so a call without a callback throws a TypeError on
whichever completion branch is reached — the only other possibility being the
uncaught pull rejection propagating.  Supplying the callback is an effective
precondition of the public interface. -/
theorem update_requires_callback (e : IvyEngine) (o : UpdateOracle) :
    (update e o false).fst = UpdateOutcome.typeError ∨
    ∃ err, o.pullRes = Except.error err ∧ (update e o false).fst = UpdateOutcome.raised err := by
  unfold update invokeThen
  cases he : e.vcsEnabled with
  | false => simp [he]
  | true =>
    by_cases heq : jsToLowerCase (getCurrentVersion e o.localRes)
        = jsToLowerCase (getUpstreamVersion e o.remoteRes)
    · left
      simp [he, heq]
    · cases hres : o.pullRes with
      | error err =>
        right
        exact ⟨err, rfl, by simp [he, heq, hres]⟩
      | ok res =>
        left
        by_cases hempty : res = "" <;> simp [he, heq, hres, hempty]

/- ------------------------------------------------------------------ -/
/- Claim C6                                                           -/
/- ------------------------------------------------------------------ -/

/-- Claim C6 counterexample: `execGit` splits its argument string at single
space characters only, not at whitespace generally — on the argument string
"a\tb" the source produces the single argument "a\tb", while a
whitespace-split produces the two arguments "a" and "b". -/
theorem execGit_whitespace_cex :
    execGitArgs "a\tb" = ["a\tb"] ∧
    specWhitespaceSplit "a\tb" = ["a", "b"] ∧
    execGitArgs "a\tb" ≠ specWhitespaceSplit "a\tb" := by
  decide

/-- Claim C6 (corrected): `execGit` splits the argument string at every single
space character (agreeing with whitespace-splitting exactly when the only
whitespace in the string is the space character), and on process exit the
promise rejects with the trimmed concatenation of the stderr chunks in arrival
order exactly when the exit code is non-zero, and otherwise resolves with the
trimmed concatenation of the stdout chunks in arrival order. -/
theorem execGit_contract (args : String) (events : List ProcEvent) (code : Int)
    (honlySpaces : ∀ c ∈ args.toList, c.isWhitespace = true → c = ' ') :
    execGitArgs args = specWhitespaceSplit args ∧
    execGitResult events code =
      (if code = 0 then Except.ok (jsTrim (jsJoin (stdoutOf events)))
       else Except.error (jsTrim (jsJoin (stderrOf events)))) := by
  constructor
  · unfold execGitArgs specWhitespaceSplit
    congr 1
    apply splitAtPred_congr
    intro c hc
    by_cases hsp : c = ' '
    · simp [hsp]
    · have hnw : c.isWhitespace = false := by
        cases hw : c.isWhitespace
        · rfl
        · exact absurd (honlySpaces c hc hw) hsp
      simp [hnw, beq_iff_eq, hsp]
  · simp only [execGitResult, foldl_handleEvent, List.nil_append]
    rcases eq_or_ne code 0 with h0 | h0 <;> simp [h0]

/-- Claim C6 witness: the argument string "rev-parse HEAD" contains no
whitespace besides spaces; with stdout chunks "abcdef1234567890" and "\n"
arriving and exit code 0, the promise resolves with the trimmed concatenated
stdout. -/
theorem execGit_contract_witness :
    execGitArgs "rev-parse HEAD" = specWhitespaceSplit "rev-parse HEAD" ∧
    execGitResult [ProcEvent.stdoutData "abcdef1234567890", ProcEvent.stdoutData "\n"] 0 =
      (if (0 : Int) = 0
       then Except.ok (jsTrim (jsJoin (stdoutOf
         [ProcEvent.stdoutData "abcdef1234567890", ProcEvent.stdoutData "\n"])))
       else Except.error (jsTrim (jsJoin (stderrOf
         [ProcEvent.stdoutData "abcdef1234567890", ProcEvent.stdoutData "\n"])))) :=
  execGit_contract "rev-parse HEAD"
    [ProcEvent.stdoutData "abcdef1234567890", ProcEvent.stdoutData "\n"] 0 (by decide)

/- ------------------------------------------------------------------ -/
/- Claim C7                                                           -/
/- ------------------------------------------------------------------ -/

/-- Claim C7 (confirmed): the construction sequence emits, in this fixed
order: registration of the event-handling module (the supplied one, else the
default), the three abstract extension points (commands, then flows, then
modules) with whatever registrations they perform, the startup hook when
supplied, then the initialization of every registered module exactly once in
registration order, and only then platform-client login. -/
theorem ivyConstructor_order (eventHandler : Option String)
    (cmdMods flowMods botMods : List String) (startup : Option (List String))
    (hnodup : ((eventHandler.getD "DefaultEventManager")
      :: (cmdMods ++ flowMods ++ botMods ++ startup.getD [])).Nodup) :
    (ivyConstructorRun eventHandler cmdMods flowMods botMods startup).fst =
      BootEvent.registerModule (eventHandler.getD "DefaultEventManager")
        :: BootEvent.registerCommandsHook :: cmdMods.map BootEvent.registerModule
        ++ BootEvent.registerFlowsHook :: flowMods.map BootEvent.registerModule
        ++ BootEvent.registerModulesHook :: botMods.map BootEvent.registerModule
        ++ (match startup with
            | none => []
            | some l => BootEvent.startupRun :: l.map BootEvent.registerModule)
        ++ ((eventHandler.getD "DefaultEventManager")
              :: (cmdMods ++ flowMods ++ botMods ++ startup.getD [])).map BootEvent.moduleInit
        ++ [BootEvent.login] := by
  have h1 : registerModuleM ⟨[]⟩ (eventHandler.getD "DefaultEventManager")
      = ⟨[eventHandler.getD "DefaultEventManager"]⟩ := by
    simp [registerModuleM]
  have hnd' : (((⟨[eventHandler.getD "DefaultEventManager"]⟩ : ModuleManager).modules)
      ++ (cmdMods ++ (flowMods ++ (botMods ++ startup.getD [])))).Nodup := by
    simpa [List.append_assoc] using hnodup
  have hm5 : ((startup.getD []).foldl registerModuleM
      (botMods.foldl registerModuleM (flowMods.foldl registerModuleM
        (cmdMods.foldl registerModuleM
          (registerModuleM ⟨[]⟩ (eventHandler.getD "DefaultEventManager")))))).modules
      = (eventHandler.getD "DefaultEventManager")
          :: (cmdMods ++ flowMods ++ botMods ++ startup.getD []) := by
    rw [← List.foldl_append, ← List.foldl_append, ← List.foldl_append, h1]
    rw [foldl_registerModuleM (cmdMods ++ (flowMods ++ (botMods ++ startup.getD [])))
      ⟨[eventHandler.getD "DefaultEventManager"]⟩ hnd']
    simp [List.append_assoc]
  simp only [ivyConstructorRun, initEvents]
  rw [hm5]
  rcases startup with _ | l <;> rfl

/-- Claim C7 witness: a concrete construction with a supplied event handler
"EH", one module registered from each extension point, and a startup hook
registering one more, produces exactly the stated trace. -/
theorem ivyConstructor_order_witness :
    (ivyConstructorRun (some "EH") ["A"] ["B"] ["C", "D"] (some ["E"])).fst =
      [BootEvent.registerModule "EH",
       BootEvent.registerCommandsHook, BootEvent.registerModule "A",
       BootEvent.registerFlowsHook, BootEvent.registerModule "B",
       BootEvent.registerModulesHook, BootEvent.registerModule "C",
       BootEvent.registerModule "D",
       BootEvent.startupRun, BootEvent.registerModule "E",
       BootEvent.moduleInit "EH", BootEvent.moduleInit "A", BootEvent.moduleInit "B",
       BootEvent.moduleInit "C", BootEvent.moduleInit "D", BootEvent.moduleInit "E",
       BootEvent.login] := by
  have h := ivyConstructor_order (some "EH") ["A"] ["B"] ["C", "D"] (some ["E"]) (by decide)
  simpa using h

/- ------------------------------------------------------------------ -/
/- Claim C8                                                           -/
/- ------------------------------------------------------------------ -/

/-- Claim C8 (confirmed): `getCurrentVersion` writes no engine state — in
state-passing form the returned engine is the input engine — so two
back-to-back calls whose subprocess oracle returns the same output return the
same value; moreover the result depends only on the live oracle output and the
`vcsEnabled` flag fixed at construction (no cached version field exists). -/
theorem getCurrentVersion_idempotent (e : IvyEngine) (res : Option String) :
    (getCurrentVersionS ((getCurrentVersionS e res).snd) res).fst
      = (getCurrentVersionS e res).fst ∧
    (getCurrentVersionS e res).snd = e ∧
    getCurrentVersion e res = getCurrentVersion ⟨e.vcsEnabled, []⟩ res :=
  ⟨rfl, rfl, rfl⟩

end Ivy
